import Mathlib

/-!
Verification development for the VectorizeDocs repository.

Shallow embedding of the repository's core logic:
  * `src/utils/chunking.py`   — `split_text_to_subchunks`
  * `src/utils/pdf_processing.py` — `process_pdf` and `elements_to_positions`
    (the latter from `src/utils/regular_helpers.py`)
  * `src/utils/mongo_utils.py` — `store_embeddings_in_db`
  * `src/gpu_worker.py`       — the embedding consumer loop body
  * `src/processor.py`        — listing phase and dynamic batch sizing
  * `src/python_worker.py`    — job claim / complete / fail / reset and `on_message`

Python strings are modelled as `List Char`, machine integers as `Nat`
(with the one signed subtraction in the chunker modelled over `Int`),
fallible external calls as `Except String` outcomes supplied by an
environment record, and the two persistence stores as explicit state.
-/

/-- The membership test of the inner widening loop of
`split_text_to_subchunks` (`text[end] not in [" ", "\n"]`):
exactly a space or a newline, not general whitespace. -/
def isSpaceOrNewline (c : Char) : Bool := c == ' ' || c == '\n'

/-- Python `str.strip()`: remove leading and trailing whitespace. -/
def pyStrip (s : List Char) : List Char :=
  ((s.dropWhile Char.isWhitespace).reverse.dropWhile Char.isWhitespace).reverse

/-- Fuelled form of the widening loop
`while end < text_len and text[end] not in [" ", "\n"]: end += 1`.
Fuel `text.length - e` is exactly enough: the loop index only ever
moves toward `text.length`, and the loop exits when it reaches it. -/
def extendEndAux (text : List Char) : Nat → Nat → Nat
  | 0, e => e
  | k + 1, e =>
    if h : e < text.length then
      if isSpaceOrNewline (text.get ⟨e, h⟩) then e else extendEndAux text k (e + 1)
    else e

/-- The widening loop of `split_text_to_subchunks`, run with adequate fuel. -/
def extendEnd (text : List Char) (e : Nat) : Nat :=
  extendEndAux text (text.length - e) e

/-- One iteration's final `end` offset: `end = start + chunk_size`, then
`if end < text_len:` run the widening loop. -/
def chunkEnd (text : List Char) (start chunk_size : Nat) : Nat :=
  if start + chunk_size < text.length then extendEnd text (start + chunk_size)
  else start + chunk_size

/-- The advance expression of `split_text_to_subchunks`, transcribed from
`start = max(end - overlap, end) if end - overlap < end else end` with the
subtraction taken over `Int` as in Python. -/
def nextStart (e overlap : Nat) : Nat :=
  (if (e : Int) - (overlap : Int) < (e : Int)
   then max ((e : Int) - (overlap : Int)) (e : Int)
   else (e : Int)).toNat

/-- One emitted sub-chunk dictionary of `split_text_to_subchunks`. -/
structure SubChunk where
  page : Nat
  position : Nat
  sub_position : Nat
  type_ : String
  is_scanned : Bool
  data : List Char
deriving DecidableEq, Repr

/-- The `while start < text_len` loop of `split_text_to_subchunks`,
with explicit fuel (`none` = fuel exhausted before the loop finished).
Each iteration: compute `end` (`chunkEnd`), strip the slice, emit it if
non-empty with `sub_pos` incrementing, advance `start` (`nextStart`),
and `break` when `start <= end and end >= text_len`. -/
def splitLoopF (text : List Char) (page_num position_id : Nat) (ty : String)
    (chunk_size overlap : Nat) (is_scanned : Bool) :
    Nat → Nat → Nat → Option (List SubChunk)
  | 0, _, _ => none
  | fuel + 1, start, sub_pos =>
    if start < text.length then
      let e := chunkEnd text start chunk_size
      let st := pyStrip ((text.drop start).take (e - start))
      if nextStart e overlap ≤ e ∧ text.length ≤ e then
        some (if st.isEmpty then [] else [⟨page_num, position_id, sub_pos, ty, is_scanned, st⟩])
      else
        (splitLoopF text page_num position_id ty chunk_size overlap is_scanned fuel
            (nextStart e overlap) (if st.isEmpty then sub_pos else sub_pos + 1)).map
          (fun rest =>
            (if st.isEmpty then [] else [⟨page_num, position_id, sub_pos, ty, is_scanned, st⟩])
              ++ rest)
    else some []

/-- `split_text_to_subchunks(text, page_num, position_id, type_, chunk_size,
overlap, is_scanned)` from `src/utils/chunking.py`, run with fuel
`text.length + 1` (shown adequate whenever `overlap < chunk_size`). -/
def split_text_to_subchunks (text : List Char) (page_num position_id : Nat) (ty : String)
    (chunk_size overlap : Nat) (is_scanned : Bool) : List SubChunk :=
  (splitLoopF text page_num position_id ty chunk_size overlap is_scanned
      (text.length + 1) 0 1).getD []

/-- One element produced by `extract_page_content` in
`src/utils/regular_helpers.py`: a content kind (`"text"` or `"table"`)
and the element's text. The geometry (`top` coordinates, bounding boxes)
lives entirely inside `extract_page_content`, which consumes external
pdfplumber data; its already-sorted output is what the rest of the
pipeline sees, so an element is modelled by the two fields that output
carries forward. -/
structure Element where
  type_ : String
  content : List Char
deriving DecidableEq, Repr

/-- One content position produced by `elements_to_positions`. -/
structure PositionRec where
  type_ : String
  content : List Char
  position : Nat
deriving DecidableEq, Repr

/-- The accumulation loop of `elements_to_positions`: `cur` is the
`current` dictionary; consecutive `"text"` elements are merged with a
newline, anything else flushes `current` and starts a new position with
the counter incremented. -/
def e2pAux : List Element → PositionRec → List PositionRec
  | [], cur => [cur]
  | el :: rest, cur =>
    if el.type_ = "text" ∧ cur.type_ = "text" then
      e2pAux rest ⟨cur.type_, cur.content ++ ('\n' :: el.content), cur.position⟩
    else
      cur :: e2pAux rest ⟨el.type_, el.content, cur.position + 1⟩

/-- `elements_to_positions(elements)` from `src/utils/regular_helpers.py`. -/
def elements_to_positions : List Element → List PositionRec
  | [] => []
  | el :: rest => e2pAux rest ⟨el.type_, el.content, 1⟩

/-- `is_scanned_page(page)` from `src/utils/scanned_helpers.py`:
`len((page.extract_text() or "").strip()) < 10`.  The page's extracted
text is the argument. -/
def is_scanned_page (text : List Char) : Bool := (pyStrip text).length < 10

/-- One page of a parsed PDF as `process_pdf` consumes it: the directly
extractable text (`page.extract_text() or ""`, used for classification)
and the output of `extract_page_content(page)` (external pdfplumber
layout data distilled to ordered elements). -/
structure PageModel where
  text : List Char
  elements : List Element
deriving DecidableEq, Repr

/-- The return dictionary of `process_pdf`. -/
structure PdfResult where
  chunks : List SubChunk
  scanned_pages : Nat
  regular_pages : Nat
deriving DecidableEq, Repr

/-- Body of the `for i, page in enumerate(pdf.pages)` loop of
`process_pdf` in `src/utils/pdf_processing.py`.  The accumulator is
`(all_sub_chunks, scanned_jobs)`.  In the source the scanned branch is
`continue` with the `scanned_jobs.append((i, pdf_bytes))` line commented
out, so a scanned page leaves the accumulator unchanged; the digital
branch extracts positions and chunks each with the default
`chunk_size=300, overlap=40`.  A queued scanned job is modelled by its
page index (the attached `pdf_bytes` carries no further information). -/
def processPageStep (acc : List SubChunk × List Nat) (ip : Nat × PageModel) :
    List SubChunk × List Nat :=
  if is_scanned_page ip.2.text then acc
  else
    (acc.1 ++
      ((elements_to_positions ip.2.elements).map fun pos =>
        split_text_to_subchunks pos.content (ip.1 + 1) pos.position pos.type_ 300 40
          false).flatten,
     acc.2)

/-- `process_pdf(pdf_stream)` from `src/utils/pdf_processing.py`.
`scannedPipeline` abstracts the Groq-OCR + DeepSeek-translation +
chunking phase (`groq_worker`/`deepseek_worker` fan-out, external
network calls) that the source runs on `scanned_jobs` when that list is
non-empty; it maps the queued page indices to the sub-chunks the phase
would append.  `scanned_pages_count = len(scanned_jobs)` and
`regular_pages_count = total_pages - scanned_pages_count` exactly as in
the source. -/
def process_pdf (scannedPipeline : List Nat → List SubChunk) (pages : List PageModel) :
    PdfResult :=
  let acc := pages.enum.foldl processPageStep ([], [])
  { chunks := if acc.2.isEmpty then acc.1 else acc.1 ++ scannedPipeline acc.2
    scanned_pages := acc.2.length
    regular_pages := pages.length - acc.2.length }

/-- One embedding record as built by `embed_batch` in
`src/utils/embedding_utils.py`: the chunk's identifying fields plus its
text.  The numeric vector (output of the external sentence-transformer
`model.encode`) is abstracted away; no claim inspects it. -/
structure EmbRecord where
  tender_id : String
  document_name : String
  data : List Char
deriving DecidableEq, Repr

/-- The document persistence store (Mongo `vector_collection`) as the
gpu worker observes it: the inserted embedding records and the set of
`(tender_id, document_name)` pairs carrying `document_complete = True`. -/
structure MongoState where
  records : List EmbRecord
  completeFlags : List (String × String)
deriving DecidableEq, Repr

/-- Failure-injection environment for one gpu-worker iteration: the
outcome of the external `model.encode` call inside `embed_batch`, of
`vector_collection.insert_many`, and of the completion
`vector_collection.update_one`.  `.error e` means the call raises. -/
structure GpuEnv where
  embedOutcome : Except String Unit
  insertOutcome : Except String Unit
  updateOutcome : Except String Unit
deriving Repr

/-- `embed_batch(chunks)` from `src/utils/embedding_utils.py`, after
`gpu_worker` has stamped `tender_id`/`document_name` onto every chunk:
on success, one record per chunk in order; raises if the external
encoder raises. -/
def embed_batch (env : GpuEnv) (tender_id document_name : String)
    (chunks : List SubChunk) : Except String (List EmbRecord) :=
  match env.embedOutcome with
  | .error e => .error e
  | .ok _ => .ok (chunks.map fun c => ⟨tender_id, document_name, c.data⟩)

/-- `vector_collection.insert_many(embeddings)`: appends the records, or
raises as injected. -/
def insert_many (env : GpuEnv) (recs : List EmbRecord) (st : MongoState) :
    Except String MongoState :=
  match env.insertOutcome with
  | .error e => .error e
  | .ok _ => .ok { st with records := st.records ++ recs }

/-- `store_embeddings_in_db(embeddings, document_name, tender_id)` from
`src/utils/mongo_utils.py`: `try: insert_many(...) except Exception as e:
print(...)`.  The second component is the exception propagated to the
caller (`none` = the function returned normally). -/
def store_embeddings_in_db (env : GpuEnv) (recs : List EmbRecord) (st : MongoState) :
    MongoState × Option String :=
  match insert_many env recs st with
  | .ok stNew => (stNew, none)
  | .error _ => (st, none)

/-- The completion `update_one({tender_id, document_name},
{$set: {document_complete: True}}, upsert=True)` in `gpu_worker`. -/
def markDocumentComplete (env : GpuEnv) (tender_id document_name : String)
    (st : MongoState) : Except String MongoState :=
  match env.updateOutcome with
  | .error e => .error e
  | .ok _ =>
    .ok { st with completeFlags :=
      if (tender_id, document_name) ∈ st.completeFlags then st.completeFlags
      else (tender_id, document_name) :: st.completeFlags }

/-- One batch work item dequeued by `gpu_worker`
(`chunks, document_name, tender_id, is_last_batch = task`). -/
structure WorkItem where
  chunks : List SubChunk
  document_name : String
  tender_id : String
  is_last_batch : Bool
deriving DecidableEq, Repr

/-- The body of the `gpu_worker` consumer loop in `src/gpu_worker.py`
for one non-sentinel task: inside one `try`, embed the batch, store the
embeddings (`store_embeddings_in_db` itself never raises), and if
`is_last_batch` run the completion update; any exception is caught,
logged, and leaves the store as it was at the raise point. -/
def gpu_worker_step (env : GpuEnv) (task : WorkItem) (st : MongoState) : MongoState :=
  match embed_batch env task.tender_id task.document_name task.chunks with
  | .error _ => st
  | .ok embeddings =>
    match store_embeddings_in_db env embeddings st with
    | (st1, _) =>
      if task.is_last_batch then
        match markDocumentComplete env task.tender_id task.document_name st1 with
        | .error _ => st1
        | .ok st2 => st2
      else st1

/-- The result dictionary initialised at the top of
`process_single_tender` in `src/processor.py`. -/
structure TenderResult where
  tender_id : String
  processed_docs : Nat
  skipped_docs : Nat
  empty_docs : Nat
  scanned_pages : Nat
  regular_pages : Nat
  errors : List String
deriving DecidableEq, Repr

/-- The freshly initialised result of `process_single_tender`. -/
def initResult (tender_id : String) : TenderResult := ⟨tender_id, 0, 0, 0, 0, 0, []⟩

/-- The listing phase of `process_single_tender` (`src/processor.py`
lines 38-47) composed with the rest of the function.  `listOutcome` is
the outcome of the external `list_s3_pdfs` call; on failure the source
appends `"list_s3_pdfs: " ++ message` (plus a traceback, abstracted
away) to `result["errors"]` and RETURNS the result normally — it does
not re-raise.  `docsPhase` abstracts the per-document loop over the
listed keys (lines 49-216), which can itself raise. -/
def process_single_tender (tender_id : String)
    (listOutcome : Except String (List String))
    (docsPhase : TenderResult → List String → Except String TenderResult) :
    Except String TenderResult :=
  match listOutcome with
  | .error e => .ok { initResult tender_id with errors := ["list_s3_pdfs: " ++ e] }
  | .ok keys => docsPhase (initResult tender_id) keys

/-- The dynamic batch-size rule of `process_single_tender`
(`src/processor.py` lines 133-141):
`file_size_kb = len(pdf_bytes)/1024`,
`size_per_page_kb = file_size_kb / max(total_pages, 1)`,
`batch_size = 20 if size_per_page_kb < 250 else 5`,
with the real-number divisions modelled exactly over `ℚ`. -/
def dynamicBatchSize (pdf_len total_pages : Nat) : Nat :=
  if ((pdf_len : ℚ) / 1024) / ((max total_pages 1 : Nat) : ℚ) < 250 then 20 else 5

/-- Modelled from the spec: `sizePerPageKB = fileSizeKB / pageCount;
batch size = 20 pages if sizePerPageKB < 250, else 5 pages`.  Stated in
the spec's own terms (no `max` guard) for comparison with
`dynamicBatchSize`. -/
def batchSizeSpec (fileSizeKB : ℚ) (pageCount : Nat) : Nat :=
  if fileSizeKB / (pageCount : ℚ) < 250 then 20 else 5

/-- Python `range(0, stop, step)` for `step > 0`. -/
def pyRange (stop step : Nat) : List Nat :=
  (List.range ((stop + step - 1) / step)).map (· * step)

/-- The page-batch iteration of `process_single_tender`
(`for start in range(0, total_pages, batch_size)`): each entry is
`(start, end, is_last)` with `end = min(start + batch_size, total_pages)`
and `is_last = end >= total_pages`. -/
def pageBatches (total_pages batch_size : Nat) : List (Nat × Nat × Bool) :=
  (pyRange total_pages batch_size).map fun start =>
    (start, min (start + batch_size) total_pages,
      decide (total_pages ≤ min (start + batch_size) total_pages))

/-- The job statuses used by `src/python_worker.py`. -/
inductive JobStatus
  | pending_python
  | running_python
  | completed
  | failed
deriving DecidableEq, Repr

/-- One row of the relational `jobs` table, restricted to the columns
`src/python_worker.py` touches.  The payload JSON is opaque. -/
structure JobRow where
  status : JobStatus
  attempts : Nat
  payload : String
  python_result : Option TenderResult
  last_error : Option String
deriving DecidableEq, Repr

/-- `MAX_ATTEMPTS = 5` in `src/python_worker.py`. -/
def MAX_ATTEMPTS : Nat := 5

/-- `claim_job(conn, job_id)`: the atomic
`UPDATE jobs SET status=running_python, attempts=attempts+1
WHERE id=%s AND status=pending_python RETURNING payload, attempts`.
Input is the job row for the message's id (`none` = no such row);
output is the updated row plus the fetched `(payload, attempts)`
(`none` = no row matched, nothing changed). -/
def claim_job (row : Option JobRow) : Option JobRow × Option (String × Nat) :=
  match row with
  | none => (none, none)
  | some r =>
    if r.status = .pending_python then
      (some { r with status := .running_python, attempts := r.attempts + 1 },
       some (r.payload, r.attempts + 1))
    else (some r, none)

/-- `reset_job_to_pending(conn, job_id)`: unconditionally sets the row's
status back to `pending_python`. -/
def reset_job_to_pending (row : Option JobRow) : Option JobRow :=
  row.map fun r => { r with status := .pending_python }

/-- `complete_job(conn, job_id, python_result)`. -/
def complete_job (row : Option JobRow) (res : TenderResult) : Option JobRow :=
  row.map fun r => { r with status := .completed, python_result := some res }

/-- `fail_job(conn, job_id, error_msg)`. -/
def fail_job (row : Option JobRow) (err : String) : Option JobRow :=
  row.map fun r => { r with status := .failed, last_error := some err }

/-- Broker signal produced by one `on_message` invocation:
`message.process()` acknowledges on normal exit and
negatively-acknowledges (requeue) when the block re-raises. -/
inductive BrokerSignal
  | acked
  | nacked
deriving DecidableEq, Repr

/-- `on_message(message)` from `src/python_worker.py` for one delivered
job message: claim the row (not claimable → return, hence ack); on an
unparseable stored payload (`payloadValid = false`) fail the job and
ack; run `process_single_tender` (outcome `procOutcome`); on success
store the result and complete; on an exception, fail-and-ack once the
incremented attempt counter has reached `MAX_ATTEMPTS`, otherwise reset
the row to pending and re-raise so the broker nacks and redelivers. -/
def on_message (procOutcome : Except String TenderResult) (payloadValid : Bool)
    (row : Option JobRow) : Option JobRow × BrokerSignal :=
  match claim_job row with
  | (rowAfter, none) => (rowAfter, .acked)
  | (rowAfter, some (_payload, attempts)) =>
    if payloadValid then
      match procOutcome with
      | .ok res => (complete_job rowAfter res, .acked)
      | .error e =>
        if MAX_ATTEMPTS ≤ attempts then (fail_job rowAfter e, .acked)
        else (reset_job_to_pending rowAfter, .nacked)
    else (fail_job rowAfter "invalid payload JSON", .acked)

/-- The advance expression of the chunker always evaluates to `end`:
when `overlap > 0` the guard holds and `max(end - overlap, end) = end`;
when `overlap = 0` the `else` branch returns `end`.  The `overlap`
parameter therefore never influences the next start offset. -/
theorem nextStart_eq (e overlap : Nat) : nextStart e overlap = e := by
  unfold nextStart
  rw [max_eq_right (by omega : (e : Int) - (overlap : Int) ≤ (e : Int))]
  split <;> exact Int.toNat_natCast e

/-- The widening loop never moves the end offset left. -/
theorem extendEndAux_ge (text : List Char) :
    ∀ (k e : Nat), e ≤ extendEndAux text k e := by
  intro k
  induction k with
  | zero => intro e; exact le_refl e
  | succ k ih =>
    intro e
    unfold extendEndAux
    split
    · split
      · exact le_refl e
      · exact le_trans (Nat.le_succ e) (ih (e + 1))
    · exact le_refl e

/-- Each iteration's final end offset is at least `start + chunk_size`. -/
theorem chunkEnd_ge (text : List Char) (start w : Nat) :
    start + w ≤ chunkEnd text start w := by
  unfold chunkEnd extendEnd
  split
  · exact extendEndAux_ge text _ _
  · exact le_refl _

/-- Dropping a whitespace prefix preserves the non-whitespace content. -/
theorem filter_dropWhile_ws (s : List Char) :
    (s.dropWhile Char.isWhitespace).filter (fun c => !c.isWhitespace) =
      s.filter (fun c => !c.isWhitespace) := by
  induction s with
  | nil => rfl
  | cons a t ih =>
    cases hws : a.isWhitespace with
    | true => simp [List.dropWhile_cons, List.filter_cons, hws, ih]
    | false => simp [List.dropWhile_cons, List.filter_cons, hws]

/-- Stripping preserves the non-whitespace content of a slice. -/
theorem filter_pyStrip (s : List Char) :
    (pyStrip s).filter (fun c => !c.isWhitespace) =
      s.filter (fun c => !c.isWhitespace) := by
  unfold pyStrip
  rw [List.filter_reverse, filter_dropWhile_ws, List.filter_reverse,
    List.reverse_reverse, filter_dropWhile_ws]

/-- Soundness of the chunker loop under `overlap < chunk_size`: fuel
`text.length - start + 1` suffices (the start offset strictly advances
by at least `chunk_size ≥ 1` per iteration), the emitted sub-positions
are consecutive from `sub_pos`, and the emitted texts carry exactly the
non-whitespace content of the unprocessed suffix of the text. -/
theorem splitLoopF_sound (text : List Char) (p pos : Nat) (ty : String)
    (w ov : Nat) (sc : Bool) (hov : ov < w) :
    ∀ (fuel start sub_pos : Nat), text.length - start < fuel →
      ∃ cs, splitLoopF text p pos ty w ov sc fuel start sub_pos = some cs ∧
        cs.map (fun c => c.sub_position) = List.range' sub_pos cs.length ∧
        ((cs.map (fun c => c.data)).flatten).filter (fun c => !c.isWhitespace) =
          (text.drop start).filter (fun c => !c.isWhitespace) := by
  intro fuel
  induction fuel with
  | zero => intro start sub_pos h; omega
  | succ f ih =>
    intro start sub_pos hfuel
    by_cases hs : start < text.length
    case neg =>
      refine ⟨[], by simp [splitLoopF, hs], rfl, ?_⟩
      rw [List.drop_eq_nil_of_le (by omega)]
      rfl
    case pos =>
      have hew : start + w ≤ chunkEnd text start w := chunkEnd_ge text start w
      set e := chunkEnd text start w with he_def
      set slice := (text.drop start).take (e - start) with hslice_def
      set st := pyStrip slice with hst_def
      have hdecomp : slice ++ text.drop e = text.drop start := by
        have h1 : slice ++ (text.drop start).drop (e - start) = text.drop start :=
          List.take_append_drop (e - start) (text.drop start)
        rw [List.drop_drop] at h1
        rw [(by omega : start + (e - start) = e)] at h1
        exact h1
      have hfsplit : (text.drop start).filter (fun c => !c.isWhitespace) =
          slice.filter (fun c => !c.isWhitespace) ++
            (text.drop e).filter (fun c => !c.isWhitespace) := by
        rw [← hdecomp, List.filter_append]
      have hstf : st.filter (fun c => !c.isWhitespace) =
          slice.filter (fun c => !c.isWhitespace) := filter_pyStrip slice
      by_cases hle : text.length ≤ e
      case pos =>
        have hcond : nextStart e ov ≤ e ∧ text.length ≤ e :=
          ⟨le_of_eq (nextStart_eq e ov), hle⟩
        refine ⟨if st.isEmpty then [] else [⟨p, pos, sub_pos, ty, sc, st⟩],
          by simp [splitLoopF, hs, hcond], ?_, ?_⟩
        · by_cases hemp : st.isEmpty <;> simp [hemp, List.range'_one]
        · have hde : text.drop e = [] := List.drop_eq_nil_of_le hle
          by_cases hemp : st.isEmpty
          · have : st = [] := List.isEmpty_iff.mp hemp
            simp [hemp, hfsplit, hde, ← hstf, this]
          · simp [hemp, hfsplit, hde, ← hstf]
      case neg =>
        have hcond : ¬(nextStart e ov ≤ e ∧ text.length ≤ e) := by
          intro h
          exact hle h.2
        obtain ⟨cs1, hcs1, hpos1, hfil1⟩ :=
          ih e (if st.isEmpty then sub_pos else sub_pos + 1) (by omega)
        refine ⟨(if st.isEmpty then [] else [⟨p, pos, sub_pos, ty, sc, st⟩]) ++ cs1,
          ?_, ?_, ?_⟩
        · simp only [splitLoopF]
          rw [if_pos hs]
          simp only [← he_def, ← hslice_def, ← hst_def]
          rw [if_neg hcond, nextStart_eq, hcs1]
          rfl
        · by_cases hemp : st.isEmpty
          · simpa [hemp] using hpos1
          · have hpos1n : cs1.map (fun c => c.sub_position) =
                List.range' (sub_pos + 1) cs1.length := by
              simpa [hemp] using hpos1
            simp [hemp, hpos1n, List.range'_succ]
        · by_cases hemp : st.isEmpty
          · have hstnil : st = [] := List.isEmpty_iff.mp hemp
            simp [hemp, hfil1, hfsplit, ← hstf, hstnil]
          · simp [hemp, List.filter_append, hfil1, hfsplit, ← hstf]

/-- The chunker loop is insensitive to its `overlap` argument: the
advance expression collapses to `end` for every overlap value. -/
theorem splitLoopF_overlap_irrel (text : List Char) (p pos : Nat) (ty : String)
    (w ov : Nat) (sc : Bool) :
    ∀ (fuel start sub_pos : Nat),
      splitLoopF text p pos ty w ov sc fuel start sub_pos =
        splitLoopF text p pos ty w 0 sc fuel start sub_pos := by
  intro fuel
  induction fuel with
  | zero => intro start sub_pos; rfl
  | succ f ih =>
    intro start sub_pos
    simp only [splitLoopF, nextStart_eq, ih]

/-- Claim C4: the claim states that with `0 < overlap < window` the
chunker advances the next start offset to `end - overlap` (sharing
`overlap` characters between consecutive sub-chunks) whenever that
makes progress.  The code instead always advances to `end`: on
`"aaaa aaaa aaaa"` with window 5 and overlap 2 the first sub-chunk ends
at offset 9 and the second starts at offset 9 (yielding `"aaaa"`), not
at offset 7 (which would yield `"aa aaaa"`); in general the output is
identical to running with overlap 0. -/
theorem C4_overlap_dead :
    (split_text_to_subchunks "aaaa aaaa aaaa".toList 1 1 "text" 5 2 false =
      [⟨1, 1, 1, "text", false, "aaaa aaaa".toList⟩,
       ⟨1, 1, 2, "text", false, "aaaa".toList⟩]) ∧
    ∀ (text : List Char) (p pos : Nat) (ty : String) (w ov : Nat) (sc : Bool),
      split_text_to_subchunks text p pos ty w ov sc =
        split_text_to_subchunks text p pos ty w 0 sc := by
  constructor
  · decide
  · intro text p pos ty w ov sc
    unfold split_text_to_subchunks
    rw [splitLoopF_overlap_irrel]

/-- Claim C9: for every finite text and window/overlap with
`overlap < window` (hence `window ≥ 1`) the chunker loop terminates;
with fuel `text.length + 1` the loop always reaches its exit before the
fuel runs out. -/
theorem C9_chunker_terminates (text : List Char) (p pos : Nat) (ty : String)
    (w ov : Nat) (sc : Bool) (hov : ov < w) :
    (splitLoopF text p pos ty w ov sc (text.length + 1) 0 1).isSome := by
  obtain ⟨cs, hcs, -, -⟩ :=
    splitLoopF_sound text p pos ty w ov sc hov (text.length + 1) 0 1 (by omega)
  rw [hcs]
  rfl

/-- Witness for C9 at an input with no whitespace at all and overlap 0. -/
theorem C9_witness :
    (splitLoopF "abcdefgh".toList 1 1 "text" 3 0 false
      ("abcdefgh".toList.length + 1) 0 1).isSome :=
  C9_chunker_terminates "abcdefgh".toList 1 1 "text" 3 0 false (by decide)

/-- Counterexample to claim C7: on `"aa aa"` with window 2 and
overlap 0 (`overlap < window`) the chunker emits `"aa"` and `"aa"`;
their concatenation `"aaaa"` is not the trimmed original `"aa aa"` —
the whitespace stripped from each slice's boundary is lost, so exact
reconstruction fails. -/
theorem C7_concat_cex :
    ((split_text_to_subchunks "aa aa".toList 1 1 "text" 2 0 false).map
        (fun c => c.data)).flatten ≠ pyStrip "aa aa".toList := by
  decide

/-- Claim C7 as amended: for `overlap < window` the emitted sub-chunks
are strictly ordered by sub-position, consecutive from 1, and
concatenating their texts reconstructs the original text up to
whitespace (the non-whitespace characters are covered exactly, without
gaps; whitespace at slice boundaries is stripped away). -/
theorem C7_cover_amended (text : List Char) (p pos : Nat) (ty : String)
    (w ov : Nat) (sc : Bool) (hov : ov < w) :
    (split_text_to_subchunks text p pos ty w ov sc).map (fun c => c.sub_position) =
      List.range' 1 (split_text_to_subchunks text p pos ty w ov sc).length ∧
    (((split_text_to_subchunks text p pos ty w ov sc).map
        (fun c => c.data)).flatten).filter (fun c => !c.isWhitespace) =
      text.filter (fun c => !c.isWhitespace) := by
  obtain ⟨cs, hcs, hpos, hfil⟩ :=
    splitLoopF_sound text p pos ty w ov sc hov (text.length + 1) 0 1 (by omega)
  unfold split_text_to_subchunks
  rw [hcs]
  exact ⟨hpos, by simpa using hfil⟩

/-- Witness for C7 as amended, at the counterexample input. -/
theorem C7_witness :
    (split_text_to_subchunks "aa aa".toList 1 1 "text" 2 0 false).map
        (fun c => c.sub_position) =
      List.range' 1 (split_text_to_subchunks "aa aa".toList 1 1 "text" 2 0 false).length ∧
    (((split_text_to_subchunks "aa aa".toList 1 1 "text" 2 0 false).map
        (fun c => c.data)).flatten).filter (fun c => !c.isWhitespace) =
      "aa aa".toList.filter (fun c => !c.isWhitespace) :=
  C7_cover_amended "aa aa".toList 1 1 "text" 2 0 false (by decide)

/-- The page loop of `process_pdf` never adds to `scanned_jobs`: the
append in the scanned branch is commented out in the source. -/
theorem processPageStep_jobs (l : List (Nat × PageModel)) :
    ∀ (cs : List SubChunk) (js : List Nat),
      (l.foldl processPageStep (cs, js)).2 = js := by
  induction l with
  | nil => intro cs js; rfl
  | cons x rest ih =>
    intro cs js
    rw [List.foldl_cons]
    by_cases hsc : is_scanned_page x.2.text
    · rw [show processPageStep (cs, js) x = (cs, js) from by
        simp [processPageStep, hsc]]
      exact ih cs js
    · rw [show processPageStep (cs, js) x =
          (cs ++ ((elements_to_positions x.2.elements).map fun pos =>
            split_text_to_subchunks pos.content (x.1 + 1) pos.position pos.type_
              300 40 false).flatten, js) from by
        simp [processPageStep, hsc]]
      exact ih _ js

/-- Claim C1 (the code at the claimed failing input): dequeueing a
last-batch work item whose `insert_many` raises still marks the
document complete — `store_embeddings_in_db` swallows the insert
exception, so the completion update runs even though no embedding
record was persisted.  The claim (flag set iff the last batch's
embeddings were successfully persisted) is violated by the code. -/
theorem C1_complete_despite_persist_failure :
    (gpu_worker_step ⟨.ok (), .error "Mongo Insert Error", .ok ()⟩
        ⟨[⟨1, 1, 1, "text", false, "hello".toList⟩], "doc.pdf", "T1", true⟩
        ⟨[], []⟩).records = [] ∧
    ("T1", "doc.pdf") ∈
      (gpu_worker_step ⟨.ok (), .error "Mongo Insert Error", .ok ()⟩
        ⟨[⟨1, 1, 1, "text", false, "hello".toList⟩], "doc.pdf", "T1", true⟩
        ⟨[], []⟩).completeFlags := by
  constructor
  · rfl
  · decide

/-- Counterexample to claim C2: the single page with extracted text
`"A"` classifies as scanned, yet `process_pdf` reports 0 scanned pages
(not 1), charges the page to the digital count, and produces no chunks
for it no matter what the scanned-page pipeline would return — the
scanned branch of the loop is `continue` with the collection of the job
commented out. -/
theorem C2_scanned_cex :
    is_scanned_page (PageModel.mk "A".toList []).text = true ∧
    (process_pdf (fun _ => [⟨1, 1, 1, "text", true, "ocr".toList⟩])
        [PageModel.mk "A".toList []]).scanned_pages = 0 ∧
    (process_pdf (fun _ => [⟨1, 1, 1, "text", true, "ocr".toList⟩])
        [PageModel.mk "A".toList []]).regular_pages = 1 ∧
    (process_pdf (fun _ => [⟨1, 1, 1, "text", true, "ocr".toList⟩])
        [PageModel.mk "A".toList []]).chunks = [] := by
  refine ⟨rfl, rfl, rfl, ?_⟩
  decide

/-- Claim C2 as amended: pages classified as scanned are skipped
outright — the OCR/translation pipeline is never consulted (the result
is the same for every pipeline), the returned scanned-page count is
always 0, and the digital-page count equals the total number of pages
processed. -/
theorem C2_scanned_skipped_amended (sp sq : List Nat → List SubChunk)
    (pages : List PageModel) :
    (process_pdf sp pages).scanned_pages = 0 ∧
    (process_pdf sp pages).regular_pages = pages.length ∧
    process_pdf sp pages = process_pdf sq pages := by
  have hjobs : (pages.enum.foldl processPageStep ([], [])).2 = ([] : List Nat) :=
    processPageStep_jobs pages.enum [] []
  refine ⟨?_, ?_, ?_⟩ <;> simp [process_pdf, hjobs]

/-- Counterexample to claim C3: with a pending job row (attempts 0) and
a tender whose PDF listing fails, `on_message` ends the attempt with
the job stored as `completed` (the listing error only recorded inside
the result), because `process_single_tender` catches the listing
failure and returns its result dictionary normally. -/
theorem C3_listing_cex :
    on_message
        (process_single_tender "T1" (.error "boom") (fun r _ => .ok r)) true
        (some ⟨.pending_python, 0, "p", none, none⟩) =
      (some ⟨.completed, 1, "p",
          some ⟨"T1", 0, 0, 0, 0, 0, ["list_s3_pdfs: boom"]⟩, none⟩,
        .acked) := by
  rfl

/-- Claim C3 as amended: a listing failure is caught inside
`process_single_tender`, recorded as `"list_s3_pdfs: ..."` in the
result's error list, and the attempt ends with the job stored as
`completed` and the message acknowledged — it does not trigger the
retry-or-fail decision. -/
theorem C3_listing_amended (tid e : String)
    (docsPhase : TenderResult → List String → Except String TenderResult)
    (r : JobRow) (h : r.status = .pending_python) :
    on_message (process_single_tender tid (.error e) docsPhase) true (some r) =
      (some { r with
          status := .completed
          attempts := r.attempts + 1
          python_result :=
            some { initResult tid with errors := ["list_s3_pdfs: " ++ e] } },
        .acked) := by
  simp [on_message, claim_job, h, process_single_tender, complete_job]

/-- Witness for C3 as amended. -/
theorem C3_witness :
    on_message
        (process_single_tender "T1" (.error "e1") (fun r _ => .ok r)) true
        (some ⟨.pending_python, 2, "p", none, none⟩) =
      (some ⟨.completed, 3, "p",
          some ⟨"T1", 0, 0, 0, 0, 0, ["list_s3_pdfs: e1"]⟩, none⟩,
        .acked) := by
  have h := C3_listing_amended "T1" "e1" (fun r _ => .ok r)
    ⟨.pending_python, 2, "p", none, none⟩ rfl
  simpa using h

/-- Claim C5: a delivered message whose job row is not in status
`pending_python` (or whose row is missing) is acknowledged with the row
left unchanged, whatever the processing outcome would have been; the
claim update returns the payload and increments the attempt counter
exactly on the `pending_python → running_python` transition; and after
one successful claim a second claim on the resulting row returns
nothing, so duplicate delivery is a no-op. -/
theorem C5_claim_exclusive (row : Option JobRow)
    (po : Except String TenderResult) (pv : Bool)
    (h : ∀ r, row = some r → r.status ≠ .pending_python) :
    on_message po pv row = (row, .acked) ∧
    (∀ r : JobRow, r.status = .pending_python →
      claim_job (some r) =
        (some { r with
            status := .running_python
            attempts := r.attempts + 1 },
          some (r.payload, r.attempts + 1))) ∧
    (∀ ro : Option JobRow, ((claim_job ro).2).isSome = true →
      ((claim_job (claim_job ro).1).2) = none) := by
  refine ⟨?_, ?_, ?_⟩
  · match row with
    | none => rfl
    | some r =>
      have hr := h r rfl
      simp [on_message, claim_job, hr]
  · intro r hr
    simp [claim_job, hr]
  · intro ro hro
    match ro with
    | none => simp [claim_job] at hro
    | some r =>
      by_cases hr : r.status = .pending_python
      · simp [claim_job, hr]
      · simp [claim_job, hr] at hro

/-- Witness for C5 at a row already completed. -/
theorem C5_witness :
    on_message (.ok (initResult "T")) true
        (some ⟨.completed, 3, "p", none, none⟩) =
      (some ⟨.completed, 3, "p", none, none⟩, .acked) :=
  (C5_claim_exclusive (some ⟨.completed, 3, "p", none, none⟩)
    (.ok (initResult "T")) true
    (fun r hr => by cases hr; decide)).1

/-- Claim C6: when processing a claimed job raises, the coordinator
fails-and-acknowledges once the incremented attempt counter has reached
`MAX_ATTEMPTS = 5` (status `failed`, error recorded), and otherwise
resets the row to `pending_python` and negatively acknowledges so the
broker redelivers. -/
theorem C6_retry_or_fail (r : JobRow) (e : String)
    (h : r.status = .pending_python) :
    (MAX_ATTEMPTS ≤ r.attempts + 1 →
      on_message (.error e) true (some r) =
        (some { r with
            status := .failed
            attempts := r.attempts + 1
            last_error := some e }, .acked)) ∧
    (r.attempts + 1 < MAX_ATTEMPTS →
      on_message (.error e) true (some r) =
        (some { r with
            status := .pending_python
            attempts := r.attempts + 1 },
          .nacked)) := by
  constructor
  · intro hmax
    simp [on_message, claim_job, h, fail_job, hmax]
  · intro hlt
    simp [on_message, claim_job, h, reset_job_to_pending, Nat.not_le.mpr hlt]

/-- Witness for C6: a fifth failing attempt ends `failed` and acked. -/
theorem C6_witness :
    on_message (.error "E") true
        (some ⟨.pending_python, 4, "p", none, none⟩) =
      (some ⟨.failed, 5, "p", none, some "E"⟩, .acked) := by
  have h := (C6_retry_or_fail ⟨.pending_python, 4, "p", none, none⟩ "E" rfl).1
    (by decide)
  simpa using h

/-- Claim C8: for a document with a known page count the code's batch
size agrees with the spec's rule `sizePerPageKB = fileSizeKB/pageCount;
20 if < 250 else 5`, and a 100-page, 10 MB document gets batch size 20,
hence exactly 5 consecutive batches of 20 pages with `is_last_batch`
true only on the fifth. -/
theorem C8_batch_sizing (len pages : Nat) (h : 1 ≤ pages) :
    dynamicBatchSize len pages = batchSizeSpec ((len : ℚ) / 1024) pages ∧
    dynamicBatchSize (10 * 1024 * 1024) 100 = 20 ∧
    pageBatches 100 (dynamicBatchSize (10 * 1024 * 1024) 100) =
      [(0, 20, false), (20, 40, false), (40, 60, false), (60, 80, false),
        (80, 100, true)] := by
  have h20 : dynamicBatchSize (10 * 1024 * 1024) 100 = 20 := by
    unfold dynamicBatchSize
    rw [if_pos (by norm_num [Nat.max_def])]
  refine ⟨?_, h20, ?_⟩
  · unfold dynamicBatchSize batchSizeSpec
    rw [Nat.max_eq_left h]
  · rw [h20]
    decide

/-- Witness for C8 at the 100-page, 10 MB document. -/
theorem C8_witness :
    dynamicBatchSize (10 * 1024 * 1024) 100 =
      batchSizeSpec (((10 * 1024 * 1024 : Nat) : ℚ) / 1024) 100 :=
  (C8_batch_sizing (10 * 1024 * 1024) 100 (by decide)).1

/-- Claim C10: `store_embeddings_in_db` returns normally for every
insert outcome — the caller receives no exception (second component
`none`) whether or not the underlying `insert_many` raised, so a
persistence failure is not observable to the caller. -/
theorem C10_store_swallows (env : GpuEnv) (recs : List EmbRecord)
    (st : MongoState) :
    (store_embeddings_in_db env recs st).2 = none := by
  unfold store_embeddings_in_db
  cases insert_many env recs st <;> rfl

